import Mathlib

/-!
Shallow embedding of the pixi task-runner core (src/cli/run.rs,
src/cli/watch.rs, src/task/reload.rs) and proofs of the spec claims.

Stateful control flow is modelled as explicit folds over event traces; the
observable side effects (shell evaluation, cache reads and writes, prints,
process exit, kill-token operations) are collected into action lists so
that theorems can speak about which effects occur and in which order.
-/

namespace Pixi

/-- Typed task-execution errors, following the `TaskExecutionError` enums in
src/cli/run.rs (lines 342-355) and src/cli/watch.rs (lines 359-375); the
`shellError` variant exists only on the watch path. -/
inductive TaskExecutionError
  | nonZeroExitCode (code : Int)
  | failedToParseShellScript
  | invalidWorkingDirectory
  | unsupportedPlatformError
  | shellError
deriving DecidableEq

/-- Result of a task-executing function: `Result<(), TaskExecutionError>`. -/
inductive ExecResult
  | ok
  | err (e : TaskExecutionError)
deriving DecidableEq

/-- Whether an `ExecResult` is the success case. -/
def ExecResult.isOk : ExecResult → Bool
  | .ok => true
  | .err _ => false

/-- Result of `ExecutableTask::can_skip`: `CanSkip::Yes` or `CanSkip::No(cache)`
carrying the freshly computed fingerprint for later persistence. -/
inductive CanSkip
  | yes
  | no (cache : Nat)
deriving DecidableEq

/-- Whether `can_skip` answered `No`, i.e. the task must run. -/
def CanSkip.isNo : CanSkip → Bool
  | .yes => false
  | .no _ => true

/-- Observable effects of the run/watch control flow. `triggerKill` stands for
invoking the cancel operation of a `deno_task_shell::KillSignal`; it is part of
the vocabulary so that theorems can state that the code never emits it. -/
inductive Action
  | printCommand
  | printDryRunBanner
  | printSkip
  | printMultiTaskMsg
  | printNotExecutable
  | printTerminated
  | printReload
  | printAvailableTasks
  | cacheRead
  | cacheWrite
  | evalShell
  | exitProcess (code : Int)
  | storeCancelled (b : Bool)
  | sleepGrace
  | newKillSignal
  | triggerKill
  | spawnTask
deriving DecidableEq

/-- Membership test for an action in an action list. -/
def hasAct (l : List Action) (a : Action) : Bool :=
  l.any (fun x => decide (x = a))

/-- Number of task (re)spawns recorded in an action list. -/
def countSpawns : List Action → Nat
  | [] => 0
  | Action.spawnTask :: r => countSpawns r + 1
  | _ :: r => countSpawns r

/-- Actions that only print to the console (no cache, shell, process or
signal effect). -/
def isPassive : Action → Bool
  | Action.printCommand => true
  | Action.printDryRunBanner => true
  | Action.printSkip => true
  | Action.printMultiTaskMsg => true
  | Action.printNotExecutable => true
  | Action.printTerminated => true
  | Action.printReload => true
  | Action.printAvailableTasks => true
  | _ => false

/-- Action `a` occurs strictly before action `b` in the list. -/
def actionBefore (a b : Action) (l : List Action) : Prop :=
  ∃ l1 l2 l3, l = l1 ++ a :: l2 ++ b :: l3

/-- Model of `command_not_found` (src/cli/run.rs lines 317-340, src/cli/watch.rs lines
334-357): collects the filtered tasks of the explicit environment or of all
environments and prints the available-tasks listing only when that set is
non-empty. -/
def command_not_found (availableTasks : List String) : List Action :=
  if availableTasks.isEmpty then [] else [Action.printAvailableTasks]

/-- Kind of a `notify` file event as matched by the watch loops. -/
inductive EventKind
  | create
  | modify
  | remove
  | access
  | other
deriving DecidableEq

/-- The event kinds the loops respond to: `Create | Modify | Remove`; all
others fall into the `_ => continue` arm. -/
def qualifying : EventKind → Bool
  | .create => true
  | .modify => true
  | .remove => true
  | .access => false
  | .other => false

/-- Outcome of `ExecutableTask::as_deno_script`: a parse failure, no script
(alias-like task), or a concrete script. -/
inductive ScriptRes
  | parseError
  | noScript
  | script
deriving DecidableEq

/-- One serialized observation of the `run`-path watched-files loop
(src/cli/run.rs lines 424-460): a file event (carrying the exit status the
re-execution would produce), a watch-stream error, or an observed
cancellation request. -/
inductive RunWEvent
  | fileOk (kind : EventKind) (time : Int) (reexecStatus : Int)
  | fileErr
  | cancel
deriving DecidableEq

/-- The data of one task iteration on the `run` path: outcome of the external
collaborators (script parsing, working directory, shell exit status), the
cache-gate answer, and, for tasks with watched files, the serialized event
trace of the watch loop. -/
structure TaskSpec where
  isExecutable : Bool
  isCustom : Bool
  canSkip : CanSkip
  scriptParse : ScriptRes
  cwdOk : Bool
  status : Int
  watched : Option (List RunWEvent)
  watcherNewOk : Bool
  watchStart : Int
deriving DecidableEq

/-- Replace the shell exit status of a task (used for re-executions, whose
status is chosen by the event that triggered them). -/
def setStatus (t : TaskSpec) (s : Int) : TaskSpec :=
  ⟨t.isExecutable, t.isCustom, t.canSkip, t.scriptParse, t.cwdOk, s,
    t.watched, t.watcherNewOk, t.watchStart⟩

/-- Replace the watched-files trace of a task. -/
def setWatched (t : TaskSpec) (w : Option (List RunWEvent)) : TaskSpec :=
  ⟨t.isExecutable, t.isCustom, t.canSkip, t.scriptParse, t.cwdOk, t.status,
    w, t.watcherNewOk, t.watchStart⟩

/-- Model of `execute_task` (src/cli/run.rs lines 360-383): parse the script (a parse
failure propagates; no script returns Ok without executing), resolve the
working directory, run `deno_task_shell::execute` and turn a non-zero status
into `NonZeroExitCode`. -/
def execute_task (t : TaskSpec) : List Action × ExecResult :=
  match t.scriptParse with
  | ScriptRes.parseError => ([], ExecResult.err TaskExecutionError.failedToParseShellScript)
  | ScriptRes.noScript => ([], ExecResult.ok)
  | ScriptRes.script =>
    if t.cwdOk then
      ([Action.evalShell],
        if t.status = 0 then ExecResult.ok
        else ExecResult.err (TaskExecutionError.nonZeroExitCode t.status))
    else ([], ExecResult.err TaskExecutionError.invalidWorkingDirectory)

/-- The event loop of `execute_task_with_watched_files` on the `run` path
(src/cli/run.rs lines 424-460): qualifying events inside the 300ms debounce
window of the last execution are skipped; accepted events re-run the task and
discard its result (`let _ = execute_task(...)`); a watch-stream error breaks
with an error result; an observed cancellation breaks with success; stream
end yields success. -/
def runWatchLoopGo (t : TaskSpec) (lastExec : Int) :
    List RunWEvent → List Action × ExecResult
  | [] => ([], ExecResult.ok)
  | RunWEvent.cancel :: _ => ([], ExecResult.ok)
  | RunWEvent.fileErr :: _ =>
    ([], ExecResult.err TaskExecutionError.invalidWorkingDirectory)
  | RunWEvent.fileOk kind time st :: rest =>
    if qualifying kind then
      if time - lastExec < 300 then runWatchLoopGo t lastExec rest
      else
        let reexec := execute_task (setStatus t st)
        let next := runWatchLoopGo t time rest
        (reexec.1 ++ next.1, next.2)
    else runWatchLoopGo t lastExec rest

/-- Model of `execute_task_with_watched_files` on the `run` path (src/cli/run.rs lines
385-487): run the task once (propagating its failure), build the file watcher
(a construction failure becomes `InvalidWorkingDirectory`), then run the
event loop starting with `last_exec_time = Instant::now()`. -/
def run_execute_task_with_watched_files (t : TaskSpec) (events : List RunWEvent) :
    List Action × ExecResult :=
  let init := execute_task t
  match init.2 with
  | ExecResult.err e => (init.1, ExecResult.err e)
  | ExecResult.ok =>
    if t.watcherNewOk then
      let loop := runWatchLoopGo t t.watchStart events
      (init.1 ++ loop.1, loop.2)
    else (init.1, ExecResult.err TaskExecutionError.invalidWorkingDirectory)

/-- Dispatch of src/cli/run.rs lines 272-286: tasks with a non-empty
`watched_files` list go through `execute_task_with_watched_files`, all others
through `execute_task`. -/
def taskExec (t : TaskSpec) : List Action × ExecResult :=
  match t.watched with
  | none => execute_task t
  | some events => run_execute_task_with_watched_files t events

/-- How one iteration of the `run` loop ends: advance to the next task, exit
the process with a code, or propagate a fatal typed error. -/
inductive StepOut
  | next
  | exit (code : Int)
  | fatal (e : TaskExecutionError)
deriving DecidableEq

/-- One iteration of the `run` loop body (src/cli/run.rs lines 179-311):
skip non-executable nodes; print the command (for non-custom tasks); in
dry-run mode just advance; otherwise consult the cache gate, execute, and on
success persist the cache; a non-zero exit code exits the process (code 127
additionally invokes `command_not_found` first); other errors are fatal. -/
def runTaskIteration (dryRun : Bool) (availableTasks : List String) (t : TaskSpec) :
    List Action × StepOut :=
  if !t.isExecutable then ([], StepOut.next)
  else
    let printActs := if t.isCustom then [] else [Action.printCommand]
    if dryRun then (printActs, StepOut.next)
    else
      match t.canSkip with
      | CanSkip.yes => (printActs ++ [Action.cacheRead, Action.printSkip], StepOut.next)
      | CanSkip.no _ =>
        let ex := taskExec t
        let acts := printActs ++ [Action.cacheRead] ++ ex.1
        match ex.2 with
        | ExecResult.ok => (acts ++ [Action.cacheWrite], StepOut.next)
        | ExecResult.err (TaskExecutionError.nonZeroExitCode c) =>
          if c = 127 then
            (acts ++ command_not_found availableTasks ++ [Action.exitProcess c],
              StepOut.exit c)
          else (acts ++ [Action.exitProcess c], StepOut.exit c)
        | ExecResult.err e => (acts, StepOut.fatal e)

/-- Outcome of the whole `run` loop. -/
inductive RunOutcome
  | ok
  | exited (code : Int)
  | fatalErr (e : TaskExecutionError)
deriving DecidableEq

/-- The `run` loop over the topological order (src/cli/run.rs lines 179-313):
iterations run in sequence until one exits the process or fails fatally. -/
def runLoop (dryRun : Bool) (availableTasks : List String) :
    List TaskSpec → List Action × RunOutcome
  | [] => ([], RunOutcome.ok)
  | t :: rest =>
    let step := runTaskIteration dryRun availableTasks t
    match step.2 with
    | StepOut.next =>
      let more := runLoop dryRun availableTasks rest
      (step.1 ++ more.1, more.2)
    | StepOut.exit c => (step.1, RunOutcome.exited c)
    | StepOut.fatal e => (step.1, RunOutcome.fatalErr e)

/-- Rewrite the exit status carried by every re-execution event. -/
def mapReexec (f : Int → Int) : List RunWEvent → List RunWEvent
  | [] => []
  | RunWEvent.fileOk k t st :: r => RunWEvent.fileOk k t (f st) :: mapReexec f r
  | RunWEvent.fileErr :: r => RunWEvent.fileErr :: mapReexec f r
  | RunWEvent.cancel :: r => RunWEvent.cancel :: mapReexec f r

/-- One serialized observation of the watch-path session loop
(src/cli/watch.rs lines 486-593): a delivered cancellation signal, completion
of the in-flight command with an exit code, a file event, or a watch-stream
error. -/
inductive WEvent
  | cancel
  | taskDone (code : Int)
  | fileOk (kind : EventKind) (time : Int)
  | fileErr
deriving DecidableEq

/-- Whether an event is the completion of a command with exit code 0. -/
def isTaskDoneZero : WEvent → Bool
  | WEvent.taskDone c => decide (c = 0)
  | _ => false

/-- Mutable state of the watch-path session loop: the shared `was_cancelled`
flag and the `last_reload` debounce timestamp. -/
structure WState where
  wasCancelled : Bool
  lastReload : Int
deriving DecidableEq

/-- Initial loop state (src/cli/watch.rs lines 480-483): `last_reload`
starts one debounce window (500ms) in the past so the first event is never
debounced. -/
def watchLoopInit (start : Int) : WState := ⟨false, start - 500⟩

/-- Result of one loop step: continue with a new state, or leave the loop
with a result. -/
inductive WStepRes
  | cont (st : WState)
  | done (r : ExecResult)
deriving DecidableEq

/-- One arm of the watch-path `select!` loop (src/cli/watch.rs lines
486-593). A cancellation sets `was_cancelled`, prints the terminated message
and breaks with success; a completion with non-zero code of a run that was
not superseded returns that code as an error, otherwise the loop continues; a
qualifying file event outside the debounce window marks the current run
cancelled, sleeps a 100ms grace period, creates a fresh kill signal and
respawns the task (resetting the flag and the window); a qualifying event
inside the window is ignored; a watch-stream error breaks with success.
No arm ever triggers the in-flight run's kill signal. -/
def watchLoopStep (st : WState) : WEvent → List Action × WStepRes
  | WEvent.cancel =>
    ([Action.storeCancelled true, Action.printTerminated], WStepRes.done ExecResult.ok)
  | WEvent.taskDone code =>
    if decide (¬ code = 0) && !st.wasCancelled then
      ([], WStepRes.done (ExecResult.err (TaskExecutionError.nonZeroExitCode code)))
    else ([], WStepRes.cont st)
  | WEvent.fileOk kind time =>
    if qualifying kind then
      if 500 ≤ time - st.lastReload then
        ([Action.storeCancelled true, Action.sleepGrace, Action.newKillSignal,
          Action.printReload, Action.storeCancelled false, Action.spawnTask],
          WStepRes.cont ⟨false, time⟩)
      else ([], WStepRes.cont st)
    else ([], WStepRes.cont st)
  | WEvent.fileErr => ([], WStepRes.done ExecResult.ok)

/-- Fold of the watch-path loop over a serialized trace; `none` means the
loop is still running after the given observations. -/
def watchLoopRun (st : WState) : List WEvent → List Action × Option ExecResult
  | [] => ([], none)
  | e :: rest =>
    let step := watchLoopStep st e
    match step.2 with
    | WStepRes.cont st2 =>
      let more := watchLoopRun st2 rest
      (step.1 ++ more.1, more.2)
    | WStepRes.done r => (step.1, some r)

/-- The no-inputs branch of the watch path (src/cli/watch.rs lines 433-468):
wait for either a cancellation (success after printing the terminated
message) or the completion of the single run (non-zero code is an error). -/
def watchNoInputs : List WEvent → List Action × Option ExecResult
  | [] => ([], none)
  | WEvent.cancel :: _ =>
    ([Action.storeCancelled true, Action.printTerminated], some ExecResult.ok)
  | WEvent.taskDone code :: _ =>
    ([], some (if code = 0 then ExecResult.ok
      else ExecResult.err (TaskExecutionError.nonZeroExitCode code)))
  | _ :: rest => watchNoInputs rest

/-- Inputs of the watch-path entry point after graph construction
(src/cli/watch.rs lines 133-330): length of the topological order, task
properties, collaborator outcomes, the watch-input patterns, and the
available-task set used by `command_not_found`. -/
structure WatchSpec where
  topoLen : Nat
  isExecutable : Bool
  isCustom : Bool
  dryRun : Bool
  canSkip : CanSkip
  scriptParse : ScriptRes
  cwdOk : Bool
  inputs : List String
  watcherNewOk : Bool
  startTime : Int
  availableTasks : List String
deriving DecidableEq

/-- Model of `execute_task_with_watched_files` on the watch path (src/cli/watch.rs
lines 378-599): a missing script is a `ShellError`, a parse or working
directory failure propagates; the initial run is spawned with a fresh kill
signal; with no inputs the no-inputs branch runs; otherwise the watcher is
built (failure becomes `InvalidWorkingDirectory`) and the session loop
runs. -/
def watch_execute_task_with_watched_files (w : WatchSpec) (trace : List WEvent) :
    List Action × Option ExecResult :=
  match w.scriptParse with
  | ScriptRes.parseError =>
    ([], some (ExecResult.err TaskExecutionError.failedToParseShellScript))
  | ScriptRes.noScript => ([], some (ExecResult.err TaskExecutionError.shellError))
  | ScriptRes.script =>
    if w.cwdOk then
      let spawnActs := [Action.newKillSignal, Action.spawnTask]
      if w.inputs.isEmpty then
        let r := watchNoInputs trace
        (spawnActs ++ r.1, r.2)
      else if w.watcherNewOk then
        let r := watchLoopRun (watchLoopInit w.startTime) trace
        (spawnActs ++ r.1, r.2)
      else (spawnActs, some (ExecResult.err TaskExecutionError.invalidWorkingDirectory))
    else ([], some (ExecResult.err TaskExecutionError.invalidWorkingDirectory))

/-- How the watch-path entry point ends: normal return, process exit with a
code, a propagated error, or still running. -/
inductive WatchResult
  | finished
  | exited (code : Int)
  | errored (e : TaskExecutionError)
  | running
deriving DecidableEq

/-- The watch-path entry point after graph construction (src/cli/watch.rs
lines 133-330): reject multi-task graphs with a message and success; empty
graphs return success; non-executable tasks print a message and return
success; dry-run prints and returns success before touching the cache; a
cache hit skips; otherwise the session runs and on success the cache record
is written, while a 127 exit invokes `command_not_found` and exits. -/
def watchExecuteFull (w : WatchSpec) (trace : List WEvent) : List Action × WatchResult :=
  if 1 < w.topoLen then ([Action.printMultiTaskMsg], WatchResult.finished)
  else if w.topoLen = 0 then ([], WatchResult.finished)
  else if !w.isExecutable then ([Action.printNotExecutable], WatchResult.finished)
  else if w.dryRun then
    (Action.printDryRunBanner :: (if w.isCustom then [] else [Action.printCommand]),
      WatchResult.finished)
  else
    match w.canSkip with
    | CanSkip.yes => ([Action.cacheRead, Action.printSkip], WatchResult.finished)
    | CanSkip.no _ =>
      let pre := Action.cacheRead :: (if w.isCustom then [] else [Action.printCommand])
      let r := watch_execute_task_with_watched_files w trace
      match r.2 with
      | none => (pre ++ r.1, WatchResult.running)
      | some ExecResult.ok => (pre ++ r.1 ++ [Action.cacheWrite], WatchResult.finished)
      | some (ExecResult.err (TaskExecutionError.nonZeroExitCode c)) =>
        if c = 127 then
          (pre ++ r.1 ++ command_not_found w.availableTasks ++ [Action.exitProcess c],
            WatchResult.exited c)
        else (pre ++ r.1 ++ [Action.exitProcess c], WatchResult.exited c)
      | some (ExecResult.err e) => (pre ++ r.1, WatchResult.errored e)

/-- A file-system snapshot: the list of paths (as component lists) that
exist. -/
def pathExists (fs : List (List String)) (p : List String) : Bool :=
  fs.contains p

/-- Model of `Path::parent`: drop the last component; the empty path has no parent. -/
def parentPath : List String → Option (List String)
  | [] => none
  | p => some p.dropLast

/-- All strict ancestors of a path: its proper component-wise initial
segments. -/
def strictAncestors (p : List String) : List (List String) :=
  (List.range p.length).map (fun n => p.take n)

/-- Whether some strict ancestor of the path exists in the snapshot. -/
def hasExistingAncestor (fs : List (List String)) (p : List String) : Bool :=
  (strictAncestors p).any (pathExists fs)

/-- The literal-path arm of `FileWatcher::new` (src/task/reload.rs lines
131-144): queue the path if it exists; otherwise consult only the immediate
parent and queue it if it exists; otherwise queue nothing. -/
def literalWatchPaths (fs : List (List String)) (p : List String) :
    List (List String) :=
  if pathExists fs p then [p]
  else
    match parentPath p with
    | some par => if pathExists fs par then [par] else []
    | none => []

/-- Whether the immediate parent of the path exists. -/
def parentExists (fs : List (List String)) (p : List String) : Bool :=
  match parentPath p with
  | some par => pathExists fs par
  | none => false

/-- One entry produced by walking a glob pattern: a matched path or a walk
error. -/
inductive GlobEntry
  | ok (p : List String)
  | err
deriving DecidableEq

/-- Whether a glob-walk entry is a match (the code sets `found_match` for
every Ok entry, before checking existence). -/
def entryOk : GlobEntry → Bool
  | GlobEntry.ok _ => true
  | GlobEntry.err => false

/-- The paths collected into the shared match list of the glob arm
(src/task/reload.rs lines 98-121): every Ok entry whose path still exists. -/
def globMatched (fs : List (List String)) (entries : List GlobEntry) :
    List (List String) :=
  entries.filterMap (fun e =>
    match e with
    | GlobEntry.ok p => if pathExists fs p then some p else none
    | GlobEntry.err => none)

/-- The glob arm of `FileWatcher::new` (src/task/reload.rs lines 86-130):
every Ok entry sets `found_match`; an Ok entry is queued only if its path
still exists; when no entry matched at all, the working directory is queued
as fallback. -/
def globWatchPaths (fs : List (List String)) (cwd : List String)
    (entries : List GlobEntry) : List (List String) :=
  if entries.any entryOk then globMatched fs entries
  else globMatched fs entries ++ [cwd]

/-- The shared signal state of src/cli/run.rs lines 489-495:
`cancellation_requested` and the watcher refcount. The count is modelled as
an integer so that non-negativity is expressible. -/
structure SignalState where
  cancellation_requested : Bool
  active_watchers : Int
deriving DecidableEq

/-- The process-wide handler cell (`OnceLock`) plus the number of handler
installations performed so far. -/
structure SigWorld where
  handler : Option SignalState
  installs : Nat
deriving DecidableEq

/-- The world before any watch session started. -/
def initSigWorld : SigWorld := ⟨none, 0⟩

/-- Model of `setup_signal_handler` (src/cli/run.rs lines 498-535): if the handler
cell is already initialized, increment the refcount; otherwise install the
handler once and create the state with flag false and count 1. -/
def setup_signal_handler (w : SigWorld) : SigWorld :=
  match w.handler with
  | some st => ⟨some ⟨st.cancellation_requested, st.active_watchers + 1⟩, w.installs⟩
  | none => ⟨some ⟨false, 1⟩, w.installs + 1⟩

/-- Model of `cleanup_signal_handler` (src/cli/run.rs lines 555-558): decrement the
refcount of the shared state. -/
def cleanup_signal_handler (w : SigWorld) : SigWorld :=
  match w.handler with
  | some st => ⟨some ⟨st.cancellation_requested, st.active_watchers - 1⟩, w.installs⟩
  | none => w

/-- A session attach (`setup_signal_handler`) or detach
(`cleanup_signal_handler`). -/
inductive SigOp
  | attach
  | detach
deriving DecidableEq

/-- Apply a sequence of attaches and detaches to the world. -/
def applySigOps (w : SigWorld) : List SigOp → SigWorld
  | [] => w
  | SigOp.attach :: rest => applySigOps (setup_signal_handler w) rest
  | SigOp.detach :: rest => applySigOps (cleanup_signal_handler w) rest

/-- Number of attaches in a sequence. -/
def countAttach : List SigOp → Nat
  | [] => 0
  | SigOp.attach :: r => countAttach r + 1
  | SigOp.detach :: r => countAttach r

/-- Number of detaches in a sequence. -/
def countDetach : List SigOp → Nat
  | [] => 0
  | SigOp.attach :: r => countDetach r
  | SigOp.detach :: r => countDetach r + 1

/-- A sequence is balanced from running count `c`: every detach is preceded
by strictly more attaches (counting the initial credit `c`). -/
def balancedFrom : Int → List SigOp → Bool
  | _, [] => true
  | c, SigOp.attach :: r => balancedFrom (c + 1) r
  | c, SigOp.detach :: r => if 0 < c then balancedFrom (c - 1) r else false

/-- A sequence never has more detaches than prior attaches. -/
def balanced (ops : List SigOp) : Bool :=
  balancedFrom 0 ops

/-- Whether an optional loop result is a success. -/
def optOk : Option ExecResult → Bool
  | some ExecResult.ok => true
  | _ => false

theorem hasAct_append (l1 l2 : List Action) (a : Action) :
    hasAct (l1 ++ l2) a = (hasAct l1 a || hasAct l2 a) := by
  simp [hasAct, List.any_append]

theorem hasAct_nil (a : Action) : hasAct [] a = false := rfl

theorem hasAct_cons (x : Action) (l : List Action) (a : Action) :
    hasAct (x :: l) a = (decide (x = a) || hasAct l a) := by
  simp [hasAct]

theorem countSpawns_append (l1 l2 : List Action) :
    countSpawns (l1 ++ l2) = countSpawns l1 + countSpawns l2 := by
  induction l1 with
  | nil => simp [countSpawns]
  | cons x r ih => cases x <;> (simp [countSpawns, ih]; try omega)

theorem watchLoopStep_no_triggerKill (st : WState) (e : WEvent) :
    hasAct (watchLoopStep st e).1 Action.triggerKill = false := by
  cases e <;> (simp only [watchLoopStep]; repeat' split) <;> simp [hasAct]

theorem watchLoopRun_no_triggerKill (st : WState) (tr : List WEvent) :
    hasAct (watchLoopRun st tr).1 Action.triggerKill = false := by
  induction tr generalizing st with
  | nil => rfl
  | cons e rest ih =>
    simp only [watchLoopRun]
    rcases h : (watchLoopStep st e).2 with st2 | r
    · simp [h, hasAct_append, watchLoopStep_no_triggerKill, ih]
    · simp [h, watchLoopStep_no_triggerKill]

/-- C2: the claim says that on every Running-to-Cancelling transition of a
watch session (external cancellation or a qualifying non-debounced mid-run
file event) the in-flight command's single-use kill token is triggered and a
grace period is waited. The code never triggers the kill token on any arm of
the session loop (it was moved into the spawned task), and on external
cancellation it breaks immediately with no grace wait; only the file-event
restart arm sleeps the 100ms grace period. This theorem shows the kill
token is never triggered on any trace, and evaluates the two cancelling
transitions at the failing inputs. -/
theorem c2_kill_token_never_triggered :
    (∀ (st : WState) (tr : List WEvent),
        hasAct (watchLoopRun st tr).1 Action.triggerKill = false)
    ∧ (watchLoopRun (watchLoopInit 0) [WEvent.cancel]).2 = some ExecResult.ok
    ∧ hasAct (watchLoopRun (watchLoopInit 0) [WEvent.cancel]).1
        (Action.storeCancelled true) = true
    ∧ hasAct (watchLoopRun (watchLoopInit 0) [WEvent.cancel]).1
        Action.sleepGrace = false
    ∧ hasAct (watchLoopRun (watchLoopInit 0) [WEvent.fileOk EventKind.modify 0]).1
        Action.sleepGrace = true
    ∧ hasAct (watchLoopRun (watchLoopInit 0) [WEvent.fileOk EventKind.modify 0]).1
        Action.triggerKill = false :=
  ⟨watchLoopRun_no_triggerKill, by decide, by decide, by decide, by decide, by decide⟩

/-- C3: the watch-loop debounce discards every qualifying file event arriving
strictly inside the 500ms window since the last accepted trigger, leaving
the window unchanged; an event at or past the window boundary is accepted,
performs exactly one restart and resets the window to its arrival time; and
two qualifying modify events 50ms apart yield exactly one restart. -/
theorem c3_debounce_window :
    (∀ (st : WState) (k : EventKind) (t : Int), qualifying k = true →
        t - st.lastReload < 500 →
        watchLoopStep st (WEvent.fileOk k t) = ([], WStepRes.cont st))
    ∧ (∀ (st : WState) (k : EventKind) (t : Int), qualifying k = true →
        500 ≤ t - st.lastReload →
        countSpawns (watchLoopStep st (WEvent.fileOk k t)).1 = 1
        ∧ (watchLoopStep st (WEvent.fileOk k t)).2 = WStepRes.cont ⟨false, t⟩)
    ∧ (∀ (s t : Int), s ≤ t →
        countSpawns (watchLoopRun (watchLoopInit s)
          [WEvent.fileOk EventKind.modify t,
           WEvent.fileOk EventKind.modify (t + 50)]).1 = 1) := by
  refine ⟨?_, ?_, ?_⟩
  · intro st k t hq hlt
    simp [watchLoopStep, hq, if_neg (by omega : ¬ 500 ≤ t - st.lastReload)]
  · intro st k t hq hge
    simp [watchLoopStep, hq, if_pos hge, countSpawns]
  · intro s t hst
    have h1 : watchLoopStep (watchLoopInit s) (WEvent.fileOk EventKind.modify t) =
        ([Action.storeCancelled true, Action.sleepGrace, Action.newKillSignal,
          Action.printReload, Action.storeCancelled false, Action.spawnTask],
          WStepRes.cont ⟨false, t⟩) := by
      simp only [watchLoopStep, qualifying, watchLoopInit, if_true]
      rw [if_pos (by omega : (500 : Int) ≤ t - (s - 500))]
    have h2 : watchLoopStep ⟨false, t⟩ (WEvent.fileOk EventKind.modify (t + 50)) =
        ([], WStepRes.cont ⟨false, t⟩) := by
      simp only [watchLoopStep, qualifying, if_true]
      rw [if_neg (by omega : ¬ (500 : Int) ≤ t + 50 - t)]
    simp [watchLoopRun, h1, h2, countSpawns_append, countSpawns]

theorem c3_debounce_window_witness :
    watchLoopStep ⟨false, 0⟩ (WEvent.fileOk EventKind.modify 100) =
      ([], WStepRes.cont ⟨false, 0⟩)
    ∧ countSpawns (watchLoopRun (watchLoopInit 0)
        [WEvent.fileOk EventKind.modify 0,
         WEvent.fileOk EventKind.modify (0 + 50)]).1 = 1 :=
  ⟨c3_debounce_window.1 ⟨false, 0⟩ EventKind.modify 100 (by decide) (by decide),
   c3_debounce_window.2.2 0 0 (by decide)⟩

/-- C8: the watch entry point rejects every task graph whose topological
order has more than one node by printing a user-facing message and returning
success, performing no cache access, no execution and propagating no
error. -/
theorem c8_multi_task_rejected :
    ∀ (w : WatchSpec) (tr : List WEvent), 1 < w.topoLen →
      watchExecuteFull w tr = ([Action.printMultiTaskMsg], WatchResult.finished) := by
  intro w tr h
  simp [watchExecuteFull, h]

theorem c8_multi_task_rejected_witness :
    watchExecuteFull ⟨2, true, false, false, CanSkip.no 0, ScriptRes.script, true,
        [], true, 0, []⟩ [] = ([Action.printMultiTaskMsg], WatchResult.finished) :=
  c8_multi_task_rejected _ [] (by decide)

theorem execute_task_setStatus_setWatched (t : TaskSpec)
    (w : Option (List RunWEvent)) (s : Int) :
    execute_task (setStatus (setWatched t w) s) = execute_task (setStatus t s) := rfl

theorem setWatched_watched (t : TaskSpec) (w : Option (List RunWEvent)) :
    (setWatched t w).watched = w := rfl

theorem setWatched_isExecutable (t : TaskSpec) (w : Option (List RunWEvent)) :
    (setWatched t w).isExecutable = t.isExecutable := rfl

theorem setWatched_canSkip (t : TaskSpec) (w : Option (List RunWEvent)) :
    (setWatched t w).canSkip = t.canSkip := rfl

theorem setWatched_watcherNewOk (t : TaskSpec) (w : Option (List RunWEvent)) :
    (setWatched t w).watcherNewOk = t.watcherNewOk := rfl

theorem setWatched_watchStart (t : TaskSpec) (w : Option (List RunWEvent)) :
    (setWatched t w).watchStart = t.watchStart := rfl

theorem execute_task_setWatched (t : TaskSpec) (w : Option (List RunWEvent)) :
    execute_task (setWatched t w) = execute_task t := rfl

theorem runTaskIteration_outcome_congr (d : Bool) (avail : List String)
    (t1 t2 : TaskSpec) (hE : t1.isExecutable = t2.isExecutable)
    (hS : t1.canSkip = t2.canSkip) (hX : (taskExec t1).2 = (taskExec t2).2) :
    (runTaskIteration d avail t1).2 = (runTaskIteration d avail t2).2 := by
  simp only [runTaskIteration, hE, hS]
  by_cases h1 : t2.isExecutable = true
  · simp only [h1]
    by_cases hD : d = true
    · simp [hD]
    · simp only [(Bool.not_eq_true d).mp hD]
      rcases h2 : t2.canSkip with _ | c
      · simp
      · simp only []
        rw [hX]
        rcases h3 : (taskExec t2).2 with _ | e
        · simp
        · rcases e with c' | _ | _ | _ | _ <;> (simp; try split) <;> simp
  · simp [(Bool.not_eq_true _).mp h1]

theorem runWatchLoopGo_setWatched (t : TaskSpec) (w : Option (List RunWEvent)) :
    ∀ (ev : List RunWEvent) (last : Int),
      runWatchLoopGo (setWatched t w) last ev = runWatchLoopGo t last ev := by
  intro ev
  induction ev with
  | nil => intro last; rfl
  | cons e rest ih =>
    intro last
    cases e with
    | cancel => rfl
    | fileErr => rfl
    | fileOk k time st =>
      by_cases hq : qualifying k = true
      · by_cases hd : time - last < 300
        · simp [runWatchLoopGo, hq, hd, ih]
        · simp [runWatchLoopGo, hq, hd, ih, execute_task_setStatus_setWatched]
      · simp [runWatchLoopGo, hq, ih]

theorem runWatchLoopGo_mapReexec (t : TaskSpec) (f : Int → Int) :
    ∀ (events : List RunWEvent) (lastExec : Int),
      (runWatchLoopGo t lastExec (mapReexec f events)).2 =
        (runWatchLoopGo t lastExec events).2 := by
  intro events
  induction events with
  | nil => intro lastExec; rfl
  | cons e rest ih =>
    intro lastExec
    cases e with
    | cancel => rfl
    | fileErr => rfl
    | fileOk k time st =>
      by_cases hq : qualifying k = true
      · by_cases hd : time - lastExec < 300
        · simp [runWatchLoopGo, mapReexec, hq, hd, ih]
        · simp [runWatchLoopGo, mapReexec, hq, hd, ih]
      · simp [runWatchLoopGo, mapReexec, hq, ih]

/-- C10: in the run path's watched-files loop every re-execution's exit code
is discarded, so changing the exit status of every re-execution changes
neither the function's result nor the outcome of the surrounding run-loop
iteration (and hence not the process exit code); only the initial
execution's outcome and the watch-stream events themselves matter. -/
theorem c10_reexec_exit_codes_discarded :
    ∀ (t : TaskSpec) (events : List RunWEvent) (f : Int → Int),
      (run_execute_task_with_watched_files t (mapReexec f events)).2 =
        (run_execute_task_with_watched_files t events).2
      ∧ ∀ (dryRun : Bool) (avail : List String),
          (runTaskIteration dryRun avail (setWatched t (some (mapReexec f events)))).2 =
            (runTaskIteration dryRun avail (setWatched t (some events))).2 := by
  intro t events f
  have hrun : (run_execute_task_with_watched_files t (mapReexec f events)).2 =
      (run_execute_task_with_watched_files t events).2 := by
    simp only [run_execute_task_with_watched_files]
    rcases h : (execute_task t).2 with _ | e
    · by_cases hw : t.watcherNewOk = true
      · simp [hw, runWatchLoopGo_mapReexec]
      · simp [hw]
    · simp
  refine ⟨hrun, ?_⟩
  intro dryRun avail
  have hexec : (taskExec (setWatched t (some (mapReexec f events)))).2 =
      (taskExec (setWatched t (some events))).2 := by
    simp only [taskExec, setWatched_watched]
    simp only [run_execute_task_with_watched_files, execute_task_setWatched,
      setWatched_watcherNewOk, setWatched_watchStart, runWatchLoopGo_setWatched]
    rcases h : (execute_task t).2 with _ | e
    · by_cases hw : t.watcherNewOk = true
      · simp [hw, runWatchLoopGo_mapReexec]
      · simp [hw]
    · simp
  exact runTaskIteration_outcome_congr dryRun avail _ _ rfl rfl hexec

theorem runTaskIteration_dry (avail : List String) (t : TaskSpec) :
    (runTaskIteration true avail t).1.all isPassive = true
    ∧ (runTaskIteration true avail t).2 = StepOut.next := by
  by_cases hE : t.isExecutable = true
  · by_cases hC : t.isCustom = true
    · simp [runTaskIteration, hE, hC, isPassive]
    · simp [runTaskIteration, hE, hC, isPassive]
  · simp [runTaskIteration, (Bool.not_eq_true _).mp hE]

theorem runLoop_dry (avail : List String) (tasks : List TaskSpec) :
    (runLoop true avail tasks).1.all isPassive = true
    ∧ (runLoop true avail tasks).2 = RunOutcome.ok := by
  induction tasks with
  | nil => simp [runLoop]
  | cons t rest ih =>
    have h := runTaskIteration_dry avail t
    simp only [runLoop, h.2]
    simp [List.all_append, h.1, ih.1, ih.2]

/-- C5: in dry-run mode the shell evaluator is never invoked and no cache
record is read or written, on both the run path (for every task in the
graph) and the watch path: every emitted action is a console print, the run
loop advances over all tasks and ends normally, and the watch entry point
returns success. -/
theorem c5_dry_run_frame :
    (∀ (avail : List String) (tasks : List TaskSpec),
        (runLoop true avail tasks).1.all isPassive = true
        ∧ (runLoop true avail tasks).2 = RunOutcome.ok)
    ∧ ∀ (w : WatchSpec) (tr : List WEvent), w.dryRun = true →
        (watchExecuteFull w tr).1.all isPassive = true
        ∧ (watchExecuteFull w tr).2 = WatchResult.finished := by
  refine ⟨fun avail tasks => runLoop_dry avail tasks, ?_⟩
  intro w tr hD
  by_cases h1 : 1 < w.topoLen
  · simp [watchExecuteFull, h1, isPassive]
  · by_cases h0 : w.topoLen = 0
    · simp [watchExecuteFull, h1, h0]
    · by_cases hE : w.isExecutable = true
      · by_cases hC : w.isCustom = true
        · simp [watchExecuteFull, h1, h0, hE, hC, hD, isPassive]
        · simp [watchExecuteFull, h1, h0, hE, hC, hD, isPassive]
      · simp [watchExecuteFull, h1, h0, (Bool.not_eq_true _).mp hE, isPassive]

theorem c5_dry_run_frame_witness :
    (watchExecuteFull ⟨1, true, false, true, CanSkip.no 0, ScriptRes.script, true,
        [], true, 0, []⟩ []).1.all isPassive = true :=
  (c5_dry_run_frame.2 ⟨1, true, false, true, CanSkip.no 0, ScriptRes.script, true,
      [], true, 0, []⟩ [] rfl).1

theorem applySigOps_some (f : Bool) (k : Nat) :
    ∀ (ops : List SigOp) (c : Int),
      applySigOps ⟨some ⟨f, c⟩, k⟩ ops =
        ⟨some ⟨f, c + countAttach ops - countDetach ops⟩, k⟩ := by
  intro ops
  induction ops with
  | nil => intro c; simp [applySigOps, countAttach, countDetach]
  | cons o rest ih =>
    intro c
    cases o with
    | attach =>
      simp only [applySigOps, setup_signal_handler, countAttach, countDetach]
      rw [ih]
      simp only [SigWorld.mk.injEq, Option.some.injEq, SignalState.mk.injEq,
        eq_self_iff_true, and_true, true_and]
      push_cast
      ring
    | detach =>
      simp only [applySigOps, cleanup_signal_handler, countAttach, countDetach]
      rw [ih]
      simp only [SigWorld.mk.injEq, Option.some.injEq, SignalState.mk.injEq,
        eq_self_iff_true, and_true, true_and]
      push_cast
      ring

theorem balancedFrom_prefix_nonneg :
    ∀ (ops : List SigOp) (c : Int), 0 ≤ c → balancedFrom c ops = true →
      ∀ p, p <+: ops → 0 ≤ c + countAttach p - countDetach p := by
  intro ops
  induction ops with
  | nil =>
    intro c hc _ p hp
    obtain ⟨tail, htail⟩ := hp
    have hpn := (List.append_eq_nil.mp htail).1
    subst hpn
    simpa [countAttach, countDetach] using hc
  | cons o rest ih =>
    intro c hc hb p hp
    cases p with
    | nil => simpa [countAttach, countDetach] using hc
    | cons q qs =>
      obtain ⟨tail, htail⟩ := hp
      rw [List.cons_append] at htail
      injection htail with hq hqs
      subst hq
      cases q with
      | attach =>
        simp only [balancedFrom] at hb
        have h2 := ih (c + 1) (by omega) hb qs ⟨tail, hqs⟩
        simp only [countAttach, countDetach] at h2 ⊢
        omega
      | detach =>
        simp only [balancedFrom] at hb
        by_cases h0 : (0 : Int) < c
        · rw [if_pos h0] at hb
          have h2 := ih (c - 1) (by omega) hb qs ⟨tail, hqs⟩
          simp only [countAttach, countDetach] at h2 ⊢
          omega
        · rw [if_neg h0] at hb
          exact absurd hb (by simp)

/-- C9: the shared cancellation state is created exactly once, by the first
session's attach, as flag false and count 1; every later attach increments
the count of the existing state without installing another handler; every
detach decrements it; and for every balanced attach/detach sequence (never
more detaches than prior attaches) the count equals attaches minus detaches
and is never negative, at every prefix of the sequence. -/
theorem c9_signal_handler_refcount :
    ∀ (ops : List SigOp), balanced ops = true →
      (applySigOps initSigWorld ops).installs ≤ 1
      ∧ (countAttach ops = 0 → applySigOps initSigWorld ops = initSigWorld)
      ∧ (0 < countAttach ops →
          applySigOps initSigWorld ops =
            ⟨some ⟨false, (countAttach ops : Int) - (countDetach ops : Int)⟩, 1⟩
          ∧ 0 ≤ (countAttach ops : Int) - (countDetach ops : Int))
      ∧ (∀ p, p <+: ops → ∀ st,
          (applySigOps initSigWorld p).handler = some st → 0 ≤ st.active_watchers)
      ∧ setup_signal_handler initSigWorld = ⟨some ⟨false, 1⟩, 1⟩ := by
  intro ops hb
  cases ops with
  | nil =>
    refine ⟨by simp [applySigOps, initSigWorld], fun _ => rfl,
      by simp [countAttach], ?_, rfl⟩
    intro p hp st hst
    obtain ⟨tail, htail⟩ := hp
    have hpn := (List.append_eq_nil.mp htail).1
    subst hpn
    simp [applySigOps, initSigWorld] at hst
  | cons o rest =>
    cases o with
    | detach => simp [balanced, balancedFrom] at hb
    | attach =>
      have hb1 : balancedFrom 1 rest = true := by
        simpa [balanced, balancedFrom] using hb
      have happ : applySigOps initSigWorld (SigOp.attach :: rest) =
          ⟨some ⟨false, 1 + (countAttach rest : Int) - countDetach rest⟩, 1⟩ := by
        rw [show applySigOps initSigWorld (SigOp.attach :: rest) =
            applySigOps ⟨some ⟨false, 1⟩, 1⟩ rest from by
          simp [applySigOps, initSigWorld, setup_signal_handler]]
        exact applySigOps_some false 1 rest 1
      have hfull := balancedFrom_prefix_nonneg rest 1 (by omega) hb1 rest List.prefix_rfl
      refine ⟨by rw [happ], ?_, ?_, ?_, rfl⟩
      · intro h
        exact absurd h (by simp [countAttach])
      · intro _
        constructor
        · rw [happ]
          simp only [countAttach, countDetach, SigWorld.mk.injEq, Option.some.injEq,
            SignalState.mk.injEq, eq_self_iff_true, and_true, true_and]
          push_cast
          ring
        · simp only [countAttach, countDetach]
          push_cast
          omega
      · intro p hp st hst
        cases p with
        | nil => simp [applySigOps, initSigWorld] at hst
        | cons q qs =>
          obtain ⟨tail, htail⟩ := hp
          rw [List.cons_append] at htail
          injection htail with hq hqs
          subst hq
          have happ2 : applySigOps initSigWorld (SigOp.attach :: qs) =
              ⟨some ⟨false, 1 + (countAttach qs : Int) - countDetach qs⟩, 1⟩ := by
            rw [show applySigOps initSigWorld (SigOp.attach :: qs) =
                applySigOps ⟨some ⟨false, 1⟩, 1⟩ qs from by
              simp [applySigOps, initSigWorld, setup_signal_handler]]
            exact applySigOps_some false 1 qs 1
          rw [happ2] at hst
          simp only [Option.some.injEq] at hst
          have hqnn := balancedFrom_prefix_nonneg rest 1 (by omega) hb1 qs ⟨tail, hqs⟩
          rw [← hst]
          simpa using hqnn

/-- C6 counterexample: with only the directory `a` existing, the literal
pattern `a/b/c` contributes no watched root, although the ancestor `a`
exists — the code consults only the immediate parent `a/b`, it does not walk
upward to the nearest existing ancestor as the claim states. -/
theorem c6_counterexample :
    literalWatchPaths [["a"]] ["a", "b", "c"] = []
    ∧ hasExistingAncestor [["a"]] ["a", "b", "c"] = true := by decide

/-- C6 amended: a literal path is queued itself when it exists; otherwise
only the immediate parent is consulted and queued when it exists; a root is
contributed exactly when the path or its immediate parent exists, and every
queued root is the path itself or its immediate parent. -/
theorem c6_literal_path_fallback :
    ∀ (fs : List (List String)) (p : List String),
      (literalWatchPaths fs p).isEmpty = (!pathExists fs p && !parentExists fs p)
      ∧ (pathExists fs p = true → literalWatchPaths fs p = [p])
      ∧ (∀ q, pathExists fs p = false → parentPath p = some q →
          pathExists fs q = true → literalWatchPaths fs p = [q])
      ∧ ∀ q, q ∈ literalWatchPaths fs p → q = p ∨ parentPath p = some q := by
  intro fs p
  by_cases hp : pathExists fs p = true
  · refine ⟨?_, fun _ => ?_, ?_, ?_⟩
    · simp [literalWatchPaths, parentExists, hp]
    · simp [literalWatchPaths, hp]
    · intro q hfalse
      rw [hp] at hfalse
      cases hfalse
    · intro q hq
      simp only [literalWatchPaths, hp, if_true, List.mem_singleton] at hq
      exact Or.inl hq
  · have hp2 : pathExists fs p = false := by simpa using hp
    rcases hpar : parentPath p with _ | par
    · have hLWP : literalWatchPaths fs p = [] := by
        simp [literalWatchPaths, hp2, hpar]
      refine ⟨?_, ?_, ?_, ?_⟩
      · simp [hLWP, parentExists, hp2, hpar]
      · intro h
        rw [h] at hp2
        cases hp2
      · intro q _ hq
        cases hq
      · intro q hq
        rw [hLWP] at hq
        cases hq
    · by_cases hpe : pathExists fs par = true
      · have hLWP : literalWatchPaths fs p = [par] := by
          simp [literalWatchPaths, hp2, hpar, hpe]
        refine ⟨?_, ?_, ?_, ?_⟩
        · simp [hLWP, parentExists, hpar, hpe, hp2]
        · intro h
          rw [h] at hp2
          cases hp2
        · intro q _ hq hqe
          injection hq with hq2
          subst hq2
          exact hLWP
        · intro q hq
          rw [hLWP] at hq
          simp only [List.mem_singleton] at hq
          subst hq
          exact Or.inr rfl
      · have hpe2 : pathExists fs par = false := by simpa using hpe
        have hLWP : literalWatchPaths fs p = [] := by
          simp [literalWatchPaths, hp2, hpar, hpe2]
        refine ⟨?_, ?_, ?_, ?_⟩
        · simp [hLWP, parentExists, hpar, hpe2, hp2]
        · intro h
          rw [h] at hp2
          cases hp2
        · intro q _ hq hqe
          injection hq with hq2
          subst hq2
          rw [hqe] at hpe2
          cases hpe2
        · intro q hq
          rw [hLWP] at hq
          cases hq

theorem c6_literal_path_fallback_witness :
    literalWatchPaths [["a"]] ["a", "b"] = [["a"]] :=
  (c6_literal_path_fallback [["a"]] ["a", "b"]).2.2.1 ["a"]
    (by decide) (by decide) (by decide)

theorem globMatched_nil_of_no_ok (fs : List (List String)) :
    ∀ (entries : List GlobEntry), entries.any entryOk = false →
      globMatched fs entries = [] := by
  intro entries h
  rw [globMatched, List.filterMap_eq_nil_iff]
  intro e he
  cases e with
  | ok p =>
    exfalso
    have hden : entries.any entryOk = true :=
      List.any_eq_true.mpr ⟨GlobEntry.ok p, he, rfl⟩
    rw [h] at hden
    cases hden
  | err => rfl

/-- C7 counterexample: a glob expansion yielding one matched entry whose
path fails the existence check (in the code, e.g. a broken symlink found by
the walk) sets `found_match` yet queues nothing, so the watched-root set of
the pattern is empty — contradicting the claim that it is never empty. -/
theorem c7_counterexample :
    globWatchPaths [] ["wd"] [GlobEntry.ok ["x"]] = []
    ∧ ([GlobEntry.ok ["x"]].any entryOk) = true := by decide

/-- C7 amended: every matched path that still exists is queued; the
working-directory fallback fires exactly when the expansion produced no
matched entry at all (walk errors do not count as matches); and whenever
every matched entry passes the existence check, the watched-root set of the
pattern is non-empty. -/
theorem c7_glob_fallback :
    ∀ (fs : List (List String)) (cwd : List String) (entries : List GlobEntry),
      (entries.any entryOk = false → globWatchPaths fs cwd entries = [cwd])
      ∧ (∀ p, GlobEntry.ok p ∈ entries → pathExists fs p = true →
          p ∈ globWatchPaths fs cwd entries)
      ∧ ((∀ p, GlobEntry.ok p ∈ entries → pathExists fs p = true) →
          globWatchPaths fs cwd entries ≠ []) := by
  intro fs cwd entries
  refine ⟨?_, ?_, ?_⟩
  · intro h
    simp [globWatchPaths, h, globMatched_nil_of_no_ok fs entries h]
  · intro p hin hex
    have hfound : entries.any entryOk = true :=
      List.any_eq_true.mpr ⟨GlobEntry.ok p, hin, rfl⟩
    simp only [globWatchPaths, hfound, if_true]
    exact List.mem_filterMap.mpr ⟨GlobEntry.ok p, hin, by simp [hex]⟩
  · intro hall
    cases hfound : entries.any entryOk with
    | false =>
      refine List.ne_nil_of_mem (show cwd ∈ globWatchPaths fs cwd entries from ?_)
      simp [globWatchPaths, hfound]
    | true =>
      obtain ⟨e, he, hok⟩ := List.any_eq_true.mp hfound
      cases e with
      | err => cases hok
      | ok p =>
        refine List.ne_nil_of_mem (show p ∈ globWatchPaths fs cwd entries from ?_)
        simp only [globWatchPaths, hfound, if_true]
        exact List.mem_filterMap.mpr ⟨GlobEntry.ok p, he, by simp [hall p he]⟩

theorem c7_glob_fallback_witness :
    globWatchPaths [["a"]] ["wd"] [GlobEntry.ok ["a"]] ≠ [] :=
  (c7_glob_fallback [["a"]] ["wd"] [GlobEntry.ok ["a"]]).2.2 (by
    intro p hp
    simp only [List.mem_singleton] at hp
    injection hp with h
    subst h
    decide)

theorem c9_signal_handler_refcount_witness :
    balanced [SigOp.attach, SigOp.attach, SigOp.detach, SigOp.detach] = true
    ∧ applySigOps initSigWorld [SigOp.attach, SigOp.attach, SigOp.detach, SigOp.detach] =
        ⟨some ⟨false,
          (countAttach [SigOp.attach, SigOp.attach, SigOp.detach, SigOp.detach] : Int)
            - (countDetach [SigOp.attach, SigOp.attach, SigOp.detach, SigOp.detach] : Int)⟩,
          1⟩ :=
  ⟨by decide,
    ((c9_signal_handler_refcount _ (by decide)).2.2.1 (by decide)).1⟩

theorem execute_task_no_cacheWrite (t : TaskSpec) :
    hasAct (execute_task t).1 Action.cacheWrite = false := by
  cases h : t.scriptParse
  · simp [execute_task, h, hasAct]
  · simp [execute_task, h, hasAct]
  · by_cases hc : t.cwdOk = true <;> simp [execute_task, h, hc, hasAct]

theorem runWatchLoopGo_no_cacheWrite (t : TaskSpec) :
    ∀ (ev : List RunWEvent) (last : Int),
      hasAct (runWatchLoopGo t last ev).1 Action.cacheWrite = false := by
  intro ev
  induction ev with
  | nil => intro last; rfl
  | cons e rest ih =>
    intro last
    cases e with
    | cancel => rfl
    | fileErr => rfl
    | fileOk k time st =>
      by_cases hq : qualifying k = true
      · by_cases hd : time - last < 300
        · simp [runWatchLoopGo, hq, hd, ih]
        · simp [runWatchLoopGo, hq, hd, hasAct_append, execute_task_no_cacheWrite, ih]
      · simp [runWatchLoopGo, hq, ih]

theorem run_etwf_no_cacheWrite (t : TaskSpec) (events : List RunWEvent) :
    hasAct (run_execute_task_with_watched_files t events).1 Action.cacheWrite = false := by
  simp only [run_execute_task_with_watched_files]
  rcases h : (execute_task t).2 with _ | e
  · by_cases hw : t.watcherNewOk = true
    · simp [hw, hasAct_append, execute_task_no_cacheWrite, runWatchLoopGo_no_cacheWrite]
    · simp [hw, execute_task_no_cacheWrite]
  · simp [execute_task_no_cacheWrite]

theorem taskExec_no_cacheWrite (t : TaskSpec) :
    hasAct (taskExec t).1 Action.cacheWrite = false := by
  rcases h : t.watched with _ | ev
  · simp [taskExec, h, execute_task_no_cacheWrite]
  · simp [taskExec, h, run_etwf_no_cacheWrite]

theorem command_not_found_no_cacheWrite (l : List String) :
    hasAct (command_not_found l) Action.cacheWrite = false := by
  by_cases h : l.isEmpty = true <;> simp [command_not_found, h, hasAct]

theorem watchLoopStep_no_cacheWrite (st : WState) (e : WEvent) :
    hasAct (watchLoopStep st e).1 Action.cacheWrite = false := by
  cases e <;> (simp only [watchLoopStep]; repeat' split) <;> simp [hasAct]

theorem watchLoopRun_no_cacheWrite (st : WState) (tr : List WEvent) :
    hasAct (watchLoopRun st tr).1 Action.cacheWrite = false := by
  induction tr generalizing st with
  | nil => rfl
  | cons e rest ih =>
    simp only [watchLoopRun]
    rcases h : (watchLoopStep st e).2 with st2 | r
    · simp [h, hasAct_append, watchLoopStep_no_cacheWrite, ih]
    · simp [h, watchLoopStep_no_cacheWrite]

theorem watchNoInputs_no_cacheWrite :
    ∀ (tr : List WEvent), hasAct (watchNoInputs tr).1 Action.cacheWrite = false := by
  intro tr
  induction tr with
  | nil => rfl
  | cons e rest ih =>
    cases e with
    | cancel => rfl
    | taskDone c => rfl
    | fileOk k t => simpa [watchNoInputs] using ih
    | fileErr => simpa [watchNoInputs] using ih

theorem watch_etwf_no_cacheWrite (w : WatchSpec) (tr : List WEvent) :
    hasAct (watch_execute_task_with_watched_files w tr).1 Action.cacheWrite = false := by
  cases h : w.scriptParse
  · simp [watch_execute_task_with_watched_files, h, hasAct]
  · simp [watch_execute_task_with_watched_files, h, hasAct]
  · by_cases hc : w.cwdOk = true
    · by_cases hi : w.inputs.isEmpty = true
      · simp [watch_execute_task_with_watched_files, h, hc, hi, hasAct_append,
          watchNoInputs_no_cacheWrite, hasAct_nil, hasAct_cons]
      · by_cases hw : w.watcherNewOk = true
        · simp [watch_execute_task_with_watched_files, h, hc, hi, hw, hasAct_append,
            watchLoopRun_no_cacheWrite, hasAct_nil, hasAct_cons]
        · simp [watch_execute_task_with_watched_files, h, hc, hi, hw, hasAct]
    · simp [watch_execute_task_with_watched_files, h, hc, hasAct]

/-- C1 counterexample: on the watch path a session whose watch stream errors
out (first observed loop event is a stream error) breaks out of the loop
with success and the cache record is then written, although no execution
completed with exit code 0 in this run — refuting the claim that the record
is persisted only after an exit-code-0 completion. -/
theorem c1_counterexample :
    hasAct (watchExecuteFull ⟨1, true, true, false, CanSkip.no 0, ScriptRes.script,
        true, ["src"], true, 0, []⟩ [WEvent.fileErr]).1 Action.cacheWrite = true
    ∧ ([WEvent.fileErr].any isTaskDoneZero) = false
    ∧ (watchExecuteFull ⟨1, true, true, false, CanSkip.no 0, ScriptRes.script,
        true, ["src"], true, 0, []⟩ [WEvent.fileErr]).2 = WatchResult.finished := by
  decide

/-- C1 amended: the cache record is written exactly when the executing
function returns success in a real (non-dry-run) iteration whose cache gate
answered No: on the run path that is exactly when `taskExec` succeeds (its
authoritative initial execution exited 0), and dry runs, non-zero exits and
typed errors never write, on either path; but on the watch path the session
also returns success — and hence writes the record — when it ends by
external cancellation or by a watch-stream error, without any exit-code-0
completion. -/
theorem c1_cache_write_characterization :
    (∀ (dryRun : Bool) (avail : List String) (t : TaskSpec),
        hasAct (runTaskIteration dryRun avail t).1 Action.cacheWrite =
          (t.isExecutable && !dryRun && t.canSkip.isNo && (taskExec t).2.isOk))
    ∧ ∀ (w : WatchSpec) (tr : List WEvent),
        hasAct (watchExecuteFull w tr).1 Action.cacheWrite =
          (decide (w.topoLen = 1) && w.isExecutable && !w.dryRun && w.canSkip.isNo
            && optOk (watch_execute_task_with_watched_files w tr).2) := by
  constructor
  · intro dryRun avail t
    by_cases hE : t.isExecutable = true
    · by_cases hD : dryRun = true
      · by_cases hC : t.isCustom = true <;>
          simp [runTaskIteration, hE, hD, hC, hasAct]
      · have hD2 : dryRun = false := by simpa using hD
        rcases hS : t.canSkip with _ | c
        · by_cases hC : t.isCustom = true <;>
            simp [runTaskIteration, hE, hD2, hS, hC, hasAct, CanSkip.isNo]
        · rcases hX : (taskExec t).2 with _ | e
          · by_cases hC : t.isCustom = true <;>
              simp [runTaskIteration, hE, hD2, hS, hC, hX, hasAct_append,
                taskExec_no_cacheWrite, hasAct, CanSkip.isNo, ExecResult.isOk]
          · by_cases hC : t.isCustom = true <;>
              rcases e with c' | _ | _ | _ | _ <;>
              simp only [runTaskIteration, hE, hD2, hS, hC, hX, CanSkip.isNo,
                ExecResult.isOk, Bool.not_true, Bool.not_false] <;>
              (repeat' split) <;>
              simp [hasAct_nil, hasAct_cons, hasAct_append, taskExec_no_cacheWrite,
                command_not_found_no_cacheWrite]
    · have hE2 : t.isExecutable = false := by simpa using hE
      simp [runTaskIteration, hE2, hasAct_nil]
  · intro w tr
    by_cases h1 : 1 < w.topoLen
    · have hne : ¬ w.topoLen = 1 := by omega
      simp [watchExecuteFull, h1, hne, hasAct]
    · by_cases h0 : w.topoLen = 0
      · have hne : ¬ w.topoLen = 1 := by omega
        simp [watchExecuteFull, h1, h0, hne, hasAct]
      · have heq : w.topoLen = 1 := by omega
        by_cases hE : w.isExecutable = true
        · by_cases hD : w.dryRun = true
          · by_cases hC : w.isCustom = true <;>
              simp [watchExecuteFull, h1, h0, hE, hD, hC, heq, hasAct]
          · have hD2 : w.dryRun = false := by simpa using hD
            rcases hS : w.canSkip with _ | c
            · simp [watchExecuteFull, h1, h0, hE, hD2, hS, heq, hasAct, CanSkip.isNo]
            · rcases hR : (watch_execute_task_with_watched_files w tr).2 with _ | r
              · by_cases hC : w.isCustom = true <;>
                  simp [watchExecuteFull, h1, h0, hE, hD2, hS, hC, heq, hR,
                    hasAct_append, watch_etwf_no_cacheWrite, hasAct_nil, hasAct_cons,
                    CanSkip.isNo, optOk]
              · rcases r with _ | e
                · by_cases hC : w.isCustom = true <;>
                    simp [watchExecuteFull, h1, h0, hE, hD2, hS, hC, heq, hR,
                      hasAct_append, watch_etwf_no_cacheWrite, hasAct_nil, hasAct_cons,
                      CanSkip.isNo, optOk]
                · by_cases hC : w.isCustom = true <;>
                    rcases e with c' | _ | _ | _ | _ <;>
                    simp only [watchExecuteFull, h1, h0, hE, hD2, hS, hC, heq, hR,
                      CanSkip.isNo, optOk, Bool.not_true, Bool.not_false] <;>
                    (repeat' split) <;>
                    simp [hasAct_nil, hasAct_cons, hasAct_append,
                      watch_etwf_no_cacheWrite, command_not_found_no_cacheWrite]
        · have hE2 : w.isExecutable = false := by simpa using hE
          simp [watchExecuteFull, h1, h0, hE2, hasAct]

theorem actionBefore_of_append (l : List Action) (a b : Action) :
    actionBefore a b (l ++ [a, b]) :=
  ⟨l, [], [], by simp⟩

theorem command_not_found_nonempty (avail : List String) (h : avail ≠ []) :
    command_not_found avail = [Action.printAvailableTasks] := by
  rw [command_not_found, if_neg]
  simpa using h

/-- C4 counterexample: with an empty available-task set, a task exiting with
code 127 exits the process with 127 but no available-tasks listing is
emitted (`command_not_found` prints only when the set is non-empty) —
refuting the claim that the listing is always emitted. -/
theorem c4_counterexample :
    hasAct (runTaskIteration false []
        ⟨true, true, CanSkip.no 0, ScriptRes.script, true, 127, none, true, 0⟩).1
      Action.printAvailableTasks = false
    ∧ (runTaskIteration false []
        ⟨true, true, CanSkip.no 0, ScriptRes.script, true, 127, none, true, 0⟩).2
      = StepOut.exit 127
    ∧ hasAct (runTaskIteration false []
        ⟨true, true, CanSkip.no 0, ScriptRes.script, true, 127, none, true, 0⟩).1
      (Action.exitProcess 127) = true := by
  decide

/-- C4 amended: whenever the available-task set is non-empty, a task
execution that ends with exit code 127 emits the available-tasks listing
(via `command_not_found`) before the process exits with 127, on both the run
path and the watch path; with an empty set, `command_not_found` is still
invoked but prints nothing. -/
theorem c4_127_listing :
    ∀ (avail : List String) (dryRun : Bool) (t : TaskSpec) (w : WatchSpec)
      (tr : List WEvent),
      avail ≠ [] →
      ((t.isExecutable = true → dryRun = false → ∀ cache, t.canSkip = CanSkip.no cache →
        (taskExec t).2 = ExecResult.err (TaskExecutionError.nonZeroExitCode 127) →
        actionBefore Action.printAvailableTasks (Action.exitProcess 127)
          (runTaskIteration dryRun avail t).1
        ∧ (runTaskIteration dryRun avail t).2 = StepOut.exit 127)
      ∧ (w.topoLen = 1 → w.isExecutable = true → w.dryRun = false →
          w.availableTasks = avail → ∀ cache, w.canSkip = CanSkip.no cache →
          (watch_execute_task_with_watched_files w tr).2 =
            some (ExecResult.err (TaskExecutionError.nonZeroExitCode 127)) →
          actionBefore Action.printAvailableTasks (Action.exitProcess 127)
            (watchExecuteFull w tr).1
          ∧ (watchExecuteFull w tr).2 = WatchResult.exited 127)) := by
  intro avail dryRun t w tr hne
  constructor
  · intro hE hD cache hS hX
    have hacts : (runTaskIteration dryRun avail t).1 =
        ((if t.isCustom then [] else [Action.printCommand]) ++ [Action.cacheRead]
          ++ (taskExec t).1) ++ [Action.printAvailableTasks, Action.exitProcess 127] := by
      subst hD
      simp [runTaskIteration, hE, hS, hX, command_not_found_nonempty avail hne]
    refine ⟨?_, ?_⟩
    · rw [hacts]
      exact actionBefore_of_append _ _ _
    · subst hD
      simp [runTaskIteration, hE, hS, hX]
  · intro hT hE hD hA cache hS hR
    have hacts : (watchExecuteFull w tr).1 =
        ((Action.cacheRead :: (if w.isCustom then [] else [Action.printCommand]))
          ++ (watch_execute_task_with_watched_files w tr).1)
          ++ [Action.printAvailableTasks, Action.exitProcess 127] := by
      simp [watchExecuteFull, hT, hE, hD, hS, hR, hA,
        command_not_found_nonempty avail hne]
    refine ⟨?_, ?_⟩
    · rw [hacts]
      exact actionBefore_of_append _ _ _
    · simp [watchExecuteFull, hT, hE, hD, hS, hR]

theorem c4_127_listing_witness :
    actionBefore Action.printAvailableTasks (Action.exitProcess 127)
      (runTaskIteration false ["build"]
        ⟨true, true, CanSkip.no 0, ScriptRes.script, true, 127, none, true, 0⟩).1 :=
  ((c4_127_listing ["build"] false
      ⟨true, true, CanSkip.no 0, ScriptRes.script, true, 127, none, true, 0⟩
      ⟨1, true, true, false, CanSkip.no 0, ScriptRes.script, true, [], true, 0, ["build"]⟩
      [] (by decide)).1 rfl rfl 0 rfl (by decide)).1

end Pixi
